import Mathlib

/-!
Shallow embedding of the e-commerce catalog service (`src/main.py`) and its
store collaborator, with theorems checking the specification's claims.

Conventions of the embedding:
* BSON documents are association lists `List (String × Value)`; Python dicts
  have unique keys, and the dict operations used by the code (`get`, `pop`,
  item assignment, iteration) are modelled by the corresponding assoc-list
  operations.
* Mongo `ObjectId` values are natural numbers below `16 ^ 24`; their string
  form is the 24-digit lowercase hex rendering, and `bson.ObjectId(s)`
  parsing accepts exactly 24-character hex strings (either case).
* Python floats (`price`, `rating`) are embedded as rationals.
* The process-wide store handle `db` is an `Option Store`: `none` models an
  unavailable store (`db is None`), `some s` a reachable store whose
  `product` collection holds `s.docs`.
-/

/-- A BSON/JSON value as it appears in a stored product document. -/
inductive Value where
  | str (s : String)
  | num (q : ℚ)
  | bool (b : Bool)
  | null
  | oid (o : Nat)
deriving DecidableEq, Repr

/-- A stored document: an association list of field names to values
(modelling a Python dict, whose keys are unique). -/
abbrev Doc : Type := List (String × Value)

/-- Dict lookup, `d.get(k)` / `d[k]`: the value at the first entry named `k`. -/
def getVal (d : Doc) (k : String) : Option Value :=
  match d with
  | [] => none
  | (k₁, v) :: rest => if k₁ = k then some v else getVal rest k

/-- Dict key removal, `d.pop(k)` (a dict holds at most one entry per key). -/
def popKey : Doc → String → Doc
  | [], _ => []
  | (k₁, v₁) :: rest, k =>
    if k₁ = k then popKey rest k else (k₁, v₁) :: popKey rest k

/-- Replace every entry named `k` by `(k, v)` in place. -/
def replaceKey (k : String) (v : Value) : Doc → Doc
  | [] => []
  | (k₁, v₁) :: rest =>
    if k₁ = k then (k, v) :: replaceKey k v rest
    else (k₁, v₁) :: replaceKey k v rest

/-- Dict item assignment, `d[k] = v`: replace the entry named `k` in place if
present, otherwise append a new entry. -/
def setKey (d : Doc) (k : String) (v : Value) : Doc :=
  if d.any (fun e => e.1 = k) then replaceKey k v d else d ++ [(k, v)]

/-- Hex digit characters used by the lowercase hex rendering of an id. -/
def hexDigitChar : Nat → Char
  | 0 => '0' | 1 => '1' | 2 => '2' | 3 => '3' | 4 => '4'
  | 5 => '5' | 6 => '6' | 7 => '7' | 8 => '8' | 9 => '9'
  | 10 => 'a' | 11 => 'b' | 12 => 'c' | 13 => 'd' | 14 => 'e' | 15 => 'f'
  | _ => '0'

/-- Big-endian hex rendering of `n` on exactly `len` digits. -/
def toHexCore (n : Nat) : Nat → List Char
  | 0 => []
  | l + 1 => toHexCore (n / 16) l ++ [hexDigitChar (n % 16)]

/-- `str(ObjectId)`: the 24-character lowercase hex form of the id. -/
def oidToString (n : Nat) : String :=
  String.mk (toHexCore n 24)

/-- Whether a character is a hexadecimal digit (either case). -/
def isHexDigit (c : Char) : Bool :=
  match c with
  | '0' | '1' | '2' | '3' | '4' | '5' | '6' | '7' | '8' | '9' => true
  | 'a' | 'b' | 'c' | 'd' | 'e' | 'f' => true
  | 'A' | 'B' | 'C' | 'D' | 'E' | 'F' => true
  | _ => false

/-- Numeric value of a hexadecimal digit character. -/
def hexVal (c : Char) : Nat :=
  match c with
  | '0' => 0 | '1' => 1 | '2' => 2 | '3' => 3 | '4' => 4
  | '5' => 5 | '6' => 6 | '7' => 7 | '8' => 8 | '9' => 9
  | 'a' | 'A' => 10 | 'b' | 'B' => 11 | 'c' | 'C' => 12
  | 'd' | 'D' => 13 | 'e' | 'E' => 14 | 'f' | 'F' => 15
  | _ => 0

/-- Parse a big-endian run of hex digits, accumulating into `acc`;
fails on the first non-hex character. -/
def parseHexChars (acc : Nat) : List Char → Option Nat
  | [] => some acc
  | c :: cs => if isHexDigit c then parseHexChars (acc * 16 + hexVal c) cs else none

/-- `bson.ObjectId(s)` as a function that may fail: succeeds exactly on
24-character hex strings, as the bson library's validity rule demands. -/
def objectIdOfString (s : String) : Option Nat :=
  if s.data.length = 24 then parseHexChars 0 s.data else none

/-- Python `str()` applied to a stored value, as used on the popped `_id`.
Only the identifier case is exercised by stored records; the other clauses
render the evident textual forms. -/
def pyStr : Value → String
  | .str s => s
  | .num q => toString q
  | .bool b => if b then "True" else "False"
  | .null => "None"
  | .oid o => oidToString o

/-- The loop body of `serialize_doc`: `if isinstance(v, ObjectId): out[k] = str(v)`. -/
def stringifyIfOid : Value → Value
  | .oid o => .str (oidToString o)
  | v => v

/-- `serialize_doc` from `src/main.py`: on a non-empty document, move a
non-null `_id` to key `id` as its string form, then stringify every remaining
`ObjectId`-valued field. -/
def serialize_doc (doc : Doc) : Doc :=
  if doc.isEmpty then doc
  else
    let out :=
      match getVal doc "_id" with
      | some v => if v ≠ .null then setKey (popKey doc "_id") "id" (.str (pyStr v)) else doc
      | none => doc
    out.map (fun e => (e.1, stringifyIfOid e.2))

example : serialize_doc [("_id", .oid 5), ("title", .str "x")] =
    [("title", .str "x"), ("id", .str (oidToString 5))] := rfl

example : objectIdOfString "00000000000000000000000a" = some 10 := rfl

example : objectIdOfString "zz" = none := rfl

example : oidToString 10 = "00000000000000000000000a" := rfl

/-- The `ProductCreate` pydantic schema: a payload that has passed
validation. `description` and `image` are optional (`None` allowed). -/
structure ProductCreate where
  title : String
  description : Option String
  price : ℚ
  category : String
  in_stock : Bool
  image : Option String
  rating : ℚ
deriving DecidableEq, Repr

/-- A raw request body for `POST /api/products`: each field is present
(`some`) or absent (`none`), before pydantic validation. -/
structure RawProduct where
  title : Option String
  description : Option String
  price : Option ℚ
  category : Option String
  in_stock : Option Bool
  image : Option String
  rating : Option ℚ
deriving DecidableEq, Repr

/-- Pydantic validation of `ProductCreate`: `title`, `price`, `category` are
required; `price` must satisfy `ge=0`; `rating` defaults to `4.5` and must
satisfy `ge=0, le=5`; `in_stock` defaults to `True`. Plain `str` fields carry
no non-emptiness constraint. -/
def validateProduct (r : RawProduct) : Except String ProductCreate :=
  match r.title with
  | none => .error "field required: title"
  | some t =>
    match r.price with
    | none => .error "field required: price"
    | some p =>
      if p < 0 then .error "price: ensure this value is greater than or equal to 0"
      else
        match r.category with
        | none => .error "field required: category"
        | some c =>
          let rat := r.rating.getD (9 / 2 : ℚ)
          if rat < 0 ∨ 5 < rat then
            .error "rating: ensure this value is within range"
          else
            .ok ⟨t, r.description, p, c, r.in_stock.getD true, r.image, rat⟩

/-- `payload.model_dump()`: the dict sent to the store on create. -/
def model_dump (p : ProductCreate) : Doc :=
  [("title", .str p.title),
   ("description", (p.description.map Value.str).getD .null),
   ("price", .num p.price),
   ("category", .str p.category),
   ("in_stock", .bool p.in_stock),
   ("image", (p.image.map Value.str).getD .null),
   ("rating", .num p.rating)]

/-- The reachable store's `product` collection together with the source of
fresh identifiers the store uses for inserts. -/
structure Store where
  docs : List Doc
  nextId : Nat

/-- Modelled from the spec: `database.create_document` (imported from the
repository's `database` module, which is not under `src/`) inserts the
document into the named collection with a store-assigned fresh identifier and
returns that identifier; the store assigns `id` at insert time. The fresh
identifier is `s.nextId` and the document is appended to the collection. -/
def create_document (s : Store) (doc : Doc) : Nat × Store :=
  (s.nextId, ⟨s.docs ++ [doc ++ [("_id", .oid s.nextId)]], (s.nextId + 1) % 16 ^ 24⟩)

/-- Mongo collection lookup by identifier, as the driver's find-one call on
the filter binding `_id` to the given identifier: the first document whose
`_id` equals it. -/
def find_one (docs : List Doc) (o : Nat) : Option Doc :=
  docs.find? (fun d => getVal d "_id" = some (.oid o))

/-- An HTTP error raised via `HTTPException(status_code, detail)`. -/
structure ApiError where
  status : Nat
  detail : String
deriving DecidableEq, Repr

/-- The get-product-by-id route (`get_product` in `src/main.py`):
404 when the store handle is `None`, 400 when the id string does not parse as
an `ObjectId`, 404 when no document matches, else the serialized document. -/
def get_product (db : Option Store) (product_id : String) : Except ApiError Doc :=
  match db with
  | none => .error ⟨404, "Not found"⟩
  | some s =>
    match objectIdOfString product_id with
    | none => .error ⟨400, "Invalid product id"⟩
    | some oid =>
      match find_one s.docs oid with
      | none => .error ⟨404, "Product not found"⟩
      | some doc => .ok (serialize_doc doc)

/-- `POST /api/products` (`create_product` in `src/main.py`): 500 when the
store handle is `None`; otherwise insert the validated payload's dump via
`create_document`, re-read the persisted record by its new id, and return it
serialized, together with the updated store. A failed re-read (unreachable
for the modelled store, which always finds the document just inserted) is the
falsy document, which `serialize_doc` returns unchanged. -/
def create_product (db : Option Store) (payload : ProductCreate) :
    Except ApiError (Doc × Store) :=
  match db with
  | none => .error ⟨500, "Database not available"⟩
  | some s =>
    let res := create_document s (model_dump payload)
    .ok (serialize_doc ((find_one res.2.docs res.1).getD []), res.2)

example :
    (validateProduct ⟨some "", none, some 10, some "X", none, none, none⟩).isOk = true := by
  norm_num [validateProduct, Except.isOk, Except.toBool]

example :
    (validateProduct ⟨none, none, some 10, some "X", none, none, none⟩).isOk = false := rfl

/-- Lexicographic comparison of character sequences by code point: the
comparison Python's `sorted` applies to strings and a computable model of the
string case of the BSON comparison order. -/
def lexLe : List Char → List Char → Bool
  | [], _ => true
  | _ :: _, [] => false
  | a :: as, b :: bs =>
    if a.toNat < b.toNat then true
    else if b.toNat < a.toNat then false
    else lexLe as bs

/-- String comparison: lexicographic by code point. -/
def strLe (a b : String) : Bool :=
  lexLe a.data b.data

/-- The BSON type rank used by the store when comparing values of different
types during a sort: Null < Numbers < String < ObjectId < Boolean. -/
def vrank : Value → Nat
  | .null => 0
  | .num _ => 1
  | .str _ => 2
  | .oid _ => 3
  | .bool _ => 4

/-- The store's total comparison order on values (BSON comparison order):
rank first, then the value within a type. -/
def leVal (a b : Value) : Bool :=
  if vrank a < vrank b then true
  else if vrank b < vrank a then false
  else
    match a, b with
    | .num x, .num y => decide (x ≤ y)
    | .str x, .str y => strLe x y
    | .oid x, .oid y => decide (x ≤ y)
    | .bool x, .bool y => !x || y
    | _, _ => true

/-- The sort key the store extracts for a field: the field's value, with a
missing field ordered as Null. -/
def sortKey (field : String) (d : Doc) : Value :=
  (getVal d field).getD .null

/-- Ascending document order on a field, as the store's sort with
direction `1` applies it. -/
def docLe (field : String) (a b : Doc) : Prop :=
  leVal (sortKey field a) (sortKey field b) = true

instance (field : String) : DecidableRel (docLe field) := by
  unfold docLe
  infer_instance

/-- Descending document order on a field, direction `-1`. -/
def docGe (field : String) (a b : Doc) : Prop :=
  leVal (sortKey field b) (sortKey field a) = true

instance (field : String) : DecidableRel (docGe field) := by
  unfold docGe
  infer_instance

/-- Whether the first character sequence starts the second. -/
def charsStart : List Char → List Char → Bool
  | [], _ => true
  | _ :: _, [] => false
  | a :: as, b :: bs => a = b && charsStart as bs

/-- Whether the first character sequence occurs contiguously in the second. -/
def charsContain (needle : List Char) : List Char → Bool
  | [] => needle.isEmpty
  | c :: rest => charsStart needle (c :: rest) || charsContain needle rest

/-- A case-insensitive regex clause on one field, as the driver evaluates
it against a document: a match requires the field to hold a string. The
template's queries are plain substrings, so the collaborator's
pattern matching is modelled as case-insensitive substring containment. -/
def regexClause (pat : String) (d : Doc) (field : String) : Bool :=
  match getVal d field with
  | some (.str s) =>
    charsContain (pat.data.map Char.toLower) (s.data.map Char.toLower)
  | _ => false

/-- Whether a document matches the filter `list_products` builds: an `$or` of
case-insensitive regexes on `title` and `description` when `q` is truthy, and
exact `category` equality when `category` is truthy. -/
def matchesFilter (q category : Option String) (d : Doc) : Bool :=
  (match q with
   | some qs =>
     if qs = "" then true
     else regexClause qs d "title" || regexClause qs d "description"
   | none => true) &&
  (match category with
   | some c =>
     if c = "" then true
     else getVal d "category" = some (.str c)
   | none => true)

/-- The list-products route (`list_products` in `src/main.py`): empty when
the store handle is `None`; otherwise filter by `q`/`category`, apply the
recognized sort if any, truncate to `limit`, and serialize each document. -/
def list_products (db : Option Store) (q category : Option String)
    (limit : Nat) (sort : Option String) : List Doc :=
  match db with
  | none => []
  | some s =>
    let filtered := s.docs.filter (matchesFilter q category)
    let sorted :=
      if sort = some "price_asc" then List.insertionSort (docLe "price") filtered
      else if sort = some "price_desc" then List.insertionSort (docGe "price") filtered
      else if sort = some "rating_desc" then List.insertionSort (docGe "rating") filtered
      else filtered
    (sorted.take limit).map serialize_doc

/-- Python truthiness of a stored value, as the comprehension
`[c for c in cats if c]` tests it. -/
def truthy : Value → Bool
  | .str s => s ≠ ""
  | .num q => q ≠ 0
  | .bool b => b
  | .null => false
  | .oid _ => true

/-- Mongo `distinct("category")`: the de-duplicated list of values of the
field over all documents that have it. -/
def distinctCategory (s : Store) : List Value :=
  (s.docs.filterMap (fun d => getVal d "category")).dedup

/-- The categories route (`categories` in `src/main.py`): empty when the
store handle is `None`; otherwise the truthy distinct category values,
sorted ascending as Python's `sorted` orders them. -/
def categories (db : Option Store) : List Value :=
  match db with
  | none => []
  | some s =>
    List.insertionSort (fun a b => leVal a b = true)
      ((distinctCategory s).filter truthy)

/-- The six sample products inserted by the startup seeding step, as listed
in `seed_products` in `src/main.py`. -/
def sampleProducts : List Doc :=
  [[("title", .str "Wireless Headphones"),
    ("description", .str "Noise-cancelling over-ear headphones with 30h battery."),
    ("price", .num 129.99),
    ("category", .str "Electronics"),
    ("in_stock", .bool true),
    ("image", .str "https://images.unsplash.com/photo-1518445077100-1be42e41a1b7?w=800&q=80"),
    ("rating", .num 4.6)],
   [("title", .str "Smart Watch"),
    ("description", .str "Fitness tracking, heart-rate monitor, and notifications."),
    ("price", .num 89.0),
    ("category", .str "Electronics"),
    ("in_stock", .bool true),
    ("image", .str "https://images.unsplash.com/photo-1511707171634-5f897ff02aa9?w=800&q=80"),
    ("rating", .num 4.4)],
   [("title", .str "Minimalist Sneakers"),
    ("description", .str "Lightweight, breathable everyday sneakers."),
    ("price", .num 59.99),
    ("category", .str "Fashion"),
    ("in_stock", .bool true),
    ("image", .str "https://images.unsplash.com/photo-1528701800489-20be0b1c7e82?w=800&q=80"),
    ("rating", .num 4.2)],
   [("title", .str "Ceramic Mug"),
    ("description", .str "Matte finish mug for your daily coffee ritual."),
    ("price", .num 14.5),
    ("category", .str "Home & Kitchen"),
    ("in_stock", .bool true),
    ("image", .str "https://images.unsplash.com/photo-1517686469429-8bdb88b9f907?w=800&q=80"),
    ("rating", .num 4.8)],
   [("title", .str "Standing Desk"),
    ("description", .str "Adjustable height desk for ergonomic work."),
    ("price", .num 279.0),
    ("category", .str "Office"),
    ("in_stock", .bool true),
    ("image", .str "https://images.unsplash.com/photo-1517084166765-7f75a9966ace?w=800&q=80"),
    ("rating", .num 4.7)],
   [("title", .str "Cotton T-Shirt"),
    ("description", .str "Soft, breathable cotton tee in multiple colors."),
    ("price", .num 19.99),
    ("category", .str "Fashion"),
    ("in_stock", .bool true),
    ("image", .str "https://images.unsplash.com/photo-1520975916090-3105956dac38?w=800&q=80"),
    ("rating", .num 4.1)]]

/-- The startup seeding step (`seed_products` in `src/main.py`): a no-op
when the store handle is `None`; when the product collection is empty, insert
the six sample products via `create_document`, in order. The modelled store
cannot fail, so the handler's swallowed-exception path is vacuous. -/
def seed_products (db : Option Store) : Option Store :=
  match db with
  | none => none
  | some s =>
    if s.docs.length = 0 then
      some (sampleProducts.foldl (fun st p => (create_document st p).2) s)
    else some s

/-- The connected-store handle as the diagnostics endpoint probes it: a
`name` attribute when present, and a collection listing that may fail with an
exception message. -/
structure DbHandle where
  name : Option String
  listCollectionNames : Except String (List String)

/-- The process environment values the diagnostics endpoint checks. -/
structure Env where
  databaseUrl : Option String
  databaseName : Option String

/-- A value in the diagnostics response object. -/
inductive TVal where
  | s (v : String)
  | none
  | list (l : List String)
deriving DecidableEq, Repr

/-- Replace every entry named `k` by `(k, v)` in the diagnostics response. -/
def treplace (k : String) (v : TVal) : List (String × TVal) → List (String × TVal)
  | [] => []
  | (k₁, v₁) :: rest =>
    if k₁ = k then (k, v) :: treplace k v rest
    else (k₁, v₁) :: treplace k v rest

/-- Dict item assignment for the diagnostics response object. -/
def tset (l : List (String × TVal)) (k : String) (v : TVal) : List (String × TVal) :=
  if l.any (fun e => e.1 = k) then treplace k v l
  else l ++ [(k, v)]

/-- Dict lookup for the diagnostics response object. -/
def tget (l : List (String × TVal)) (k : String) : Option TVal :=
  match l with
  | [] => Option.none
  | (k₁, v) :: rest => if k₁ = k then some v else tget rest k

/-- The diagnostics route (`test_database` in `src/main.py`): build the fixed
response object, update it according to the store handle, catching a failing
collection listing as status text, then overwrite the `database_url` and
`database_name` entries with environment presence checks. The modelled
handle probes cannot themselves throw, so the outer catch-all is vacuous. -/
def test_database (db : Option DbHandle) (env : Env) : List (String × TVal) :=
  let response : List (String × TVal) :=
    [("backend", .s "✅ Running"),
     ("database", .s "❌ Not Available"),
     ("database_url", .none),
     ("database_name", .none),
     ("connection_status", .s "Not Connected"),
     ("collections", .list [])]
  let response :=
    match db with
    | some h =>
      let response := tset response "database" (.s "✅ Available")
      let response := tset response "database_url" (.s "✅ Configured")
      let response := tset response "database_name"
        (.s (match h.name with | some n => n | Option.none => "✅ Connected"))
      let response := tset response "connection_status" (.s "Connected")
      match h.listCollectionNames with
      | .ok collections =>
        let response := tset response "collections" (.list (collections.take 10))
        tset response "database" (.s "✅ Connected & Working")
      | .error e =>
        tset response "database" (.s ("⚠️  Connected but Error: " ++ e.take 50))
    | Option.none => tset response "database" (.s "⚠️  Available but not initialized")
  let response := tset response "database_url"
    (.s (if env.databaseUrl.isSome then "✅ Set" else "❌ Not Set"))
  tset response "database_name"
    (.s (if env.databaseName.isSome then "✅ Set" else "❌ Not Set"))

theorem getVal_nil (k : String) : getVal [] k = none := rfl

theorem getVal_popKey_ne (d : Doc) (k k₂ : String) (h : k ≠ k₂) :
    getVal (popKey d k₂) k = getVal d k := by
  induction d with
  | nil => rfl
  | cons e rest ih =>
    obtain ⟨k₁, v₁⟩ := e
    by_cases he : k₁ = k₂
    · have hk : k₁ ≠ k := fun hc => h (hc.symm.trans he)
      simpa [popKey, getVal, he, hk, Ne.symm h] using ih
    · by_cases hk : k₁ = k
      · simp [popKey, getVal, he, hk, h]
      · simpa [popKey, getVal, he, hk] using ih

theorem getVal_popKey_self (d : Doc) (k : String) :
    getVal (popKey d k) k = none := by
  induction d with
  | nil => rfl
  | cons e rest ih =>
    obtain ⟨k₁, v₁⟩ := e
    by_cases he : k₁ = k
    · simpa [popKey, getVal, he] using ih
    · simpa [popKey, getVal, he] using ih

theorem getVal_append_right (d₁ d₂ : Doc) (k : String) (h : getVal d₁ k = none) :
    getVal (d₁ ++ d₂) k = getVal d₂ k := by
  induction d₁ with
  | nil => rfl
  | cons e rest ih =>
    obtain ⟨k₁, v₁⟩ := e
    by_cases he : k₁ = k
    · simp [getVal, he] at h
    · simp [getVal, he] at h ⊢
      exact ih h

theorem getVal_replaceKey_ne (d : Doc) (k k₂ : String) (v : Value) (h : k ≠ k₂) :
    getVal (replaceKey k₂ v d) k = getVal d k := by
  induction d with
  | nil => rfl
  | cons e rest ih =>
    obtain ⟨k₁, v₁⟩ := e
    by_cases he : k₁ = k₂
    · have hk : k₁ ≠ k := fun hc => h (hc.symm.trans he)
      have hk₂ : k₂ ≠ k := fun hc => h hc.symm
      simpa [replaceKey, getVal, he, hk, hk₂] using ih
    · by_cases hk : k₁ = k
      · simp [replaceKey, getVal, he, hk, h]
      · simpa [replaceKey, getVal, he, hk] using ih

theorem getVal_replaceKey_self (d : Doc) (k : String) (v : Value)
    (hany : d.any (fun e => e.1 = k) = true) :
    getVal (replaceKey k v d) k = some v := by
  induction d with
  | nil => simp at hany
  | cons e rest ih =>
    obtain ⟨k₁, v₁⟩ := e
    by_cases he : k₁ = k
    · simp [replaceKey, getVal, he]
    · have hrest : rest.any (fun e => e.1 = k) = true := by
        simp [he] at hany
        simpa using hany
      simpa [replaceKey, getVal, he] using ih hrest

theorem getVal_none_of_any_false (d : Doc) (k : String)
    (h : d.any (fun e => e.1 = k) = false) : getVal d k = none := by
  induction d with
  | nil => rfl
  | cons e rest ih =>
    obtain ⟨k₁, v₁⟩ := e
    simp at h
    simp [getVal, h.1]
    exact ih (by simpa using h.2)

theorem getVal_setKey_ne (d : Doc) (k k₂ : String) (v : Value) (h : k ≠ k₂) :
    getVal (setKey d k₂ v) k = getVal d k := by
  unfold setKey
  by_cases hany : d.any (fun e => e.1 = k₂) = true
  · rw [if_pos hany]
    exact getVal_replaceKey_ne d k k₂ v h
  · rw [if_neg hany]
    by_cases hk : getVal d k = none
    · rw [getVal_append_right d [(k₂, v)] k hk, hk]
      simp [getVal, Ne.symm h]
    · induction d with
      | nil => exact absurd rfl hk
      | cons e rest ih =>
        obtain ⟨k₁, v₁⟩ := e
        by_cases he : k₁ = k
        · simp [getVal, he]
        · simp only [List.cons_append, getVal, he, if_neg] at *
          exact ih (fun hc => hany (by simp at hc ⊢; exact Or.inr hc)) hk

theorem getVal_setKey_self (d : Doc) (k : String) (v : Value) :
    getVal (setKey d k v) k = some v := by
  unfold setKey
  by_cases hany : d.any (fun e => e.1 = k) = true
  · rw [if_pos hany]
    exact getVal_replaceKey_self d k v hany
  · rw [if_neg hany]
    have hfalse : d.any (fun e => e.1 = k) = false := by
      cases hb : d.any (fun e => e.1 = k)
      · rfl
      · exact absurd hb hany
    have hnone : getVal d k = none := getVal_none_of_any_false d k hfalse
    rw [getVal_append_right d [(k, v)] k hnone]
    simp [getVal]

theorem getVal_mapStringify (d : Doc) (k : String) :
    getVal (d.map (fun e => (e.1, stringifyIfOid e.2))) k =
      (getVal d k).map stringifyIfOid := by
  induction d with
  | nil => rfl
  | cons e rest ih =>
    by_cases he : e.1 = k
    · simp [getVal, he]
    · simp [getVal, he]
      exact ih

theorem serialize_doc_of_id (d : Doc) (o : Nat)
    (h : getVal d "_id" = some (.oid o)) :
    serialize_doc d =
      (setKey (popKey d "_id") "id" (.str (oidToString o))).map
        (fun e => (e.1, stringifyIfOid e.2)) := by
  have hne : d.isEmpty = false := by
    cases d with
    | nil => simp [getVal] at h
    | cons e rest => rfl
  unfold serialize_doc
  rw [hne]
  simp only [Bool.false_eq_true, if_neg, not_false_iff]
  rw [h]
  simp [pyStr]

theorem getVal_serialize_other (d : Doc) (k : String)
    (hk₁ : k ≠ "_id") (hk₂ : k ≠ "id") :
    getVal (serialize_doc d) k = (getVal d k).map stringifyIfOid := by
  cases hd : d.isEmpty
  · cases hid : getVal d "_id" with
    | none =>
      have hser : serialize_doc d = d.map (fun e => (e.1, stringifyIfOid e.2)) := by
        unfold serialize_doc
        rw [hd, hid]
        rfl
      rw [hser]
      exact getVal_mapStringify d k
    | some v =>
      by_cases hv : v = Value.null
      · have hser : serialize_doc d = d.map (fun e => (e.1, stringifyIfOid e.2)) := by
          unfold serialize_doc
          rw [hd, hid, hv]
          simp
        rw [hser]
        exact getVal_mapStringify d k
      · have hser : serialize_doc d =
            (setKey (popKey d "_id") "id" (.str (pyStr v))).map
              (fun e => (e.1, stringifyIfOid e.2)) := by
          unfold serialize_doc
          rw [hd, hid]
          simp [hv]
        rw [hser, getVal_mapStringify,
          getVal_setKey_ne _ _ _ _ hk₂, getVal_popKey_ne _ _ _ hk₁]
  · have : d = [] := by
      cases d with
      | nil => rfl
      | cons e rest => simp [List.isEmpty] at hd
    subst this
    simp [getVal]

theorem getVal_serialize_id (d : Doc) (o : Nat)
    (h : getVal d "_id" = some (.oid o)) :
    getVal (serialize_doc d) "id" = some (.str (oidToString o)) := by
  rw [serialize_doc_of_id d o h, getVal_mapStringify, getVal_setKey_self]
  rfl

theorem getVal_serialize_under (d : Doc) (o : Nat)
    (h : getVal d "_id" = some (.oid o)) :
    getVal (serialize_doc d) "_id" = none := by
  rw [serialize_doc_of_id d o h, getVal_mapStringify,
    getVal_setKey_ne _ _ _ _ (by decide), getVal_popKey_self]
  rfl

theorem length_toHexCore (n l : Nat) : (toHexCore n l).length = l := by
  induction l generalizing n with
  | zero => rfl
  | succ l ih => simp [toHexCore, ih]

theorem hexVal_hexDigitChar (d : Nat) (h : d < 16) :
    hexVal (hexDigitChar d) = d := by
  interval_cases d <;> rfl

theorem isHexDigit_hexDigitChar (d : Nat) (h : d < 16) :
    isHexDigit (hexDigitChar d) = true := by
  interval_cases d <;> rfl

theorem parseHexChars_append (acc : Nat) (xs ys : List Char) :
    parseHexChars acc (xs ++ ys) =
      match parseHexChars acc xs with
      | some a => parseHexChars a ys
      | none => none := by
  induction xs generalizing acc with
  | nil => rfl
  | cons c cs ih =>
    by_cases hc : isHexDigit c = true
    · simp [parseHexChars, hc]
      exact ih _
    · simp [parseHexChars, hc]

theorem parseHexChars_toHexCore (l n acc : Nat) (h : n < 16 ^ l) :
    parseHexChars acc (toHexCore n l) = some (acc * 16 ^ l + n) := by
  induction l generalizing n acc with
  | zero =>
    have : n = 0 := by omega
    subst this
    simp [toHexCore, parseHexChars]
  | succ l ih =>
    have hdiv : n / 16 < 16 ^ l := by
      rw [Nat.div_lt_iff_lt_mul (by norm_num)]
      calc n < 16 ^ (l + 1) := h
        _ = 16 ^ l * 16 := by ring
    rw [toHexCore, parseHexChars_append, ih (n / 16) acc hdiv]
    have hmod : n % 16 < 16 := Nat.mod_lt _ (by norm_num)
    simp [parseHexChars, isHexDigit_hexDigitChar _ hmod, hexVal_hexDigitChar _ hmod]
    calc (acc * 16 ^ l + n / 16) * 16 + n % 16
        = acc * (16 ^ l * 16) + (16 * (n / 16) + n % 16) := by ring
      _ = acc * 16 ^ (l + 1) + n := by rw [Nat.div_add_mod, pow_succ]

theorem objectIdOfString_oidToString (n : Nat) (h : n < 16 ^ 24) :
    objectIdOfString (oidToString n) = some n := by
  unfold objectIdOfString oidToString
  have hdata : (String.mk (toHexCore n 24)).data = toHexCore n 24 := rfl
  rw [hdata, length_toHexCore]
  simp only [if_pos]
  have := parseHexChars_toHexCore 24 n 0 h
  simpa using this

theorem lexLe_total (a b : List Char) : lexLe a b = true ∨ lexLe b a = true := by
  induction a generalizing b with
  | nil => exact Or.inl rfl
  | cons x xs ih =>
    cases b with
    | nil => exact Or.inr rfl
    | cons y ys =>
      rcases Nat.lt_trichotomy x.toNat y.toNat with hlt | heq | hgt
      · exact Or.inl (by simp [lexLe, hlt])
      · have h₁ : ¬x.toNat < y.toNat := by omega
        have h₂ : ¬y.toNat < x.toNat := by omega
        rcases ih ys with h | h
        · exact Or.inl (by simp [lexLe, h₁, h₂, h])
        · exact Or.inr (by simp [lexLe, h₁, h₂, h])
      · exact Or.inr (by simp [lexLe, hgt])

theorem lexLe_trans (a b c : List Char)
    (h₁ : lexLe a b = true) (h₂ : lexLe b c = true) : lexLe a c = true := by
  induction a generalizing b c with
  | nil => rfl
  | cons x xs ih =>
    cases b with
    | nil => simp [lexLe] at h₁
    | cons y ys =>
      cases c with
      | nil => simp [lexLe] at h₂
      | cons z zs =>
        simp only [lexLe] at h₁ h₂ ⊢
        rcases Nat.lt_trichotomy x.toNat y.toNat with hxy | hxy | hxy
        · rcases Nat.lt_trichotomy y.toNat z.toNat with hyz | hyz | hyz
          · simp [show x.toNat < z.toNat by omega]
          · simp [show x.toNat < z.toNat by omega]
          · simp [hyz, show ¬y.toNat < z.toNat by omega] at h₂
        · rcases Nat.lt_trichotomy y.toNat z.toNat with hyz | hyz | hyz
          · simp [show x.toNat < z.toNat by omega]
          · have hxz₁ : ¬x.toNat < z.toNat := by omega
            have hxz₂ : ¬z.toNat < x.toNat := by omega
            simp [hxz₁, hxz₂]
            simp [show ¬x.toNat < y.toNat by omega,
              show ¬y.toNat < x.toNat by omega] at h₁
            simp [show ¬y.toNat < z.toNat by omega,
              show ¬z.toNat < y.toNat by omega] at h₂
            exact ih ys zs h₁ h₂
          · simp [hyz, show ¬y.toNat < z.toNat by omega] at h₂
        · simp [hxy, show ¬x.toNat < y.toNat by omega] at h₁

theorem strLe_total (a b : String) : strLe a b = true ∨ strLe b a = true :=
  lexLe_total a.data b.data

theorem strLe_trans (a b c : String)
    (h₁ : strLe a b = true) (h₂ : strLe b c = true) : strLe a c = true :=
  lexLe_trans a.data b.data c.data h₁ h₂

theorem leVal_total (a b : Value) : leVal a b = true ∨ leVal b a = true := by
  by_cases hab : vrank a < vrank b
  · exact Or.inl (by simp [leVal, hab])
  · by_cases hba : vrank b < vrank a
    · exact Or.inr (by simp [leVal, hba])
    · cases a <;> cases b <;> simp [leVal, vrank] at hab hba ⊢
      · exact strLe_total _ _
      · exact le_total _ _
      · rename_i x y
        cases x <;> cases y <;> simp
      · exact Nat.le_total _ _

theorem leVal_trans (a b c : Value)
    (h₁ : leVal a b = true) (h₂ : leVal b c = true) : leVal a c = true := by
  rcases Nat.lt_trichotomy (vrank a) (vrank b) with hab | hab | hab
  · rcases Nat.lt_trichotomy (vrank b) (vrank c) with hbc | hbc | hbc
    · simp [leVal, show vrank a < vrank c by omega]
    · simp [leVal, show vrank a < vrank c by omega]
    · simp [leVal, hbc, show ¬vrank b < vrank c by omega] at h₂
  · rcases Nat.lt_trichotomy (vrank b) (vrank c) with hbc | hbc | hbc
    · simp [leVal, show vrank a < vrank c by omega]
    · have hac₁ : ¬vrank a < vrank c := by omega
      have hac₂ : ¬vrank c < vrank a := by omega
      simp [leVal, show ¬vrank a < vrank b by omega,
        show ¬vrank b < vrank a by omega] at h₁
      simp [leVal, show ¬vrank b < vrank c by omega,
        show ¬vrank c < vrank b by omega] at h₂
      simp only [leVal, hac₁, hac₂, if_neg, not_false_iff, if_false]
      cases a <;> cases b <;> cases c <;> simp [vrank] at hab hbc <;>
        simp at h₁ h₂ ⊢
      case num.num.num x y z => exact le_trans h₁ h₂
      case str.str.str x y z => exact strLe_trans x y z h₁ h₂
      case bool.bool.bool x y z =>
        cases x <;> cases y <;> cases z <;> simp_all
      case oid.oid.oid x y z => exact Nat.le_trans h₁ h₂
    · simp [leVal, hbc, show ¬vrank b < vrank c by omega] at h₂
  · simp [leVal, hab, show ¬vrank a < vrank b by omega] at h₁

instance : IsTotal Value (fun a b => leVal a b = true) :=
  ⟨leVal_total⟩

instance : IsTrans Value (fun a b => leVal a b = true) :=
  ⟨leVal_trans⟩

instance (field : String) : IsTotal Doc (docLe field) :=
  ⟨fun a b => leVal_total (sortKey field a) (sortKey field b)⟩

instance (field : String) : IsTrans Doc (docLe field) :=
  ⟨fun _ _ _ h₁ h₂ => leVal_trans _ _ _ h₁ h₂⟩

instance (field : String) : IsTotal Doc (docGe field) :=
  ⟨fun a b => leVal_total (sortKey field b) (sortKey field a)⟩

instance (field : String) : IsTrans Doc (docGe field) :=
  ⟨fun _ _ _ h₁ h₂ => leVal_trans _ _ _ h₂ h₁⟩

/-- C6: when the store is unavailable (`db is None`), `list_products` and
`categories` each return an empty sequence rather than failing, for every
combination of query parameters. -/
theorem degraded_reads_empty :
    (∀ q category limit sort,
      list_products none q category limit sort = []) ∧
    categories none = [] :=
  ⟨fun _ _ _ _ => rfl, rfl⟩

/-- C10: when the store is unavailable, `get_product` fails with the
404-equivalent "Not found" error for every input string, malformed
identifiers included, because the availability check precedes identifier
parsing; in particular no 400 invalid-identifier error is possible. -/
theorem get_product_unavailable_notfound (pid : String) :
    get_product none pid = .error ⟨404, "Not found"⟩ :=
  rfl

/-- C3 counterexample: with the store unavailable, the malformed identifier
string "nope" does not parse as a store identifier, yet `get_product` fails
with the 404 "Not found" error rather than the claimed 400
invalid-identifier error. -/
theorem malformed_id_unavailable_counterexample :
    objectIdOfString "nope" = none ∧
    get_product none "nope" = .error ⟨404, "Not found"⟩ ∧
    (⟨404, "Not found"⟩ : ApiError).status ≠ 400 :=
  ⟨rfl, rfl, by decide⟩

/-- C3 (amended): when the store is available, every input string to
`get_product` falls into the claimed trichotomy: a string that does not
parse as a store identifier fails with the 400 invalid-identifier error; a
well-formed identifier with no matching record fails with the 404 not-found
error; otherwise exactly one product document is returned. (When the store
is unavailable the availability check precedes parsing and every input fails
with 404, as the counterexample shows.) -/
theorem get_product_available_trichotomy (s : Store) (pid : String) :
    (objectIdOfString pid = none →
      get_product (some s) pid = .error ⟨400, "Invalid product id"⟩) ∧
    (∀ o, objectIdOfString pid = some o → find_one s.docs o = none →
      get_product (some s) pid = .error ⟨404, "Product not found"⟩) ∧
    (∀ o d, objectIdOfString pid = some o → find_one s.docs o = some d →
      get_product (some s) pid = .ok (serialize_doc d)) := by
  refine ⟨?_, ?_, ?_⟩
  · intro h
    simp [get_product, h]
  · intro o h₁ h₂
    simp [get_product, h₁, h₂]
  · intro o d h₁ h₂
    simp [get_product, h₁, h₂]

/-- Witness for the amended C3 trichotomy at concrete inputs: a store with a
single record with identifier 3 yields 400 on "zz", 404 on the absent
identifier 5, and the serialized record on identifier 3. -/
theorem get_product_available_trichotomy_witness :
    get_product (some ⟨[[("_id", .oid 3)]], 4⟩) "zz" =
      .error ⟨400, "Invalid product id"⟩ ∧
    get_product (some ⟨[[("_id", .oid 3)]], 4⟩) (oidToString 5) =
      .error ⟨404, "Product not found"⟩ ∧
    get_product (some ⟨[[("_id", .oid 3)]], 4⟩) (oidToString 3) =
      .ok (serialize_doc [("_id", .oid 3)]) :=
  ⟨(get_product_available_trichotomy _ _).1 rfl,
   (get_product_available_trichotomy _ _).2.1 5
     (objectIdOfString_oidToString 5 (by norm_num)) rfl,
   (get_product_available_trichotomy _ _).2.2 3 [("_id", .oid 3)]
     (objectIdOfString_oidToString 3 (by norm_num)) rfl⟩

/-- C2 counterexample: a payload whose `title` is the empty string (with
price 10 and category "X") passes `ProductCreate` validation and is
accepted, because the pydantic field `title: str` carries no non-emptiness
constraint; the claim that an empty title fails validation is false. -/
theorem empty_title_payload_validates :
    validateProduct ⟨some "", none, some 10, some "X", none, none, none⟩ =
      .ok ⟨"", none, 10, "X", true, none, 9 / 2⟩ := by
  norm_num [validateProduct]

/-- C2 (amended): `create_product` rejects with a validation error every
payload missing a required field (`title`, `price`, or `category`); however
a payload whose required text field is present but empty passes validation,
as an empty `title` with otherwise valid fields is accepted. -/
theorem create_rejects_missing_required_fields :
    (∀ r : RawProduct, r.title = none → ∃ e, validateProduct r = .error e) ∧
    (∀ r : RawProduct, r.price = none → ∃ e, validateProduct r = .error e) ∧
    (∀ r : RawProduct, r.category = none → ∃ e, validateProduct r = .error e) ∧
    validateProduct ⟨some "", none, some 10, some "X", none, none, none⟩ =
      .ok ⟨"", none, 10, "X", true, none, 9 / 2⟩ := by
  refine ⟨?_, ?_, ?_, by norm_num [validateProduct]⟩
  · intro r h
    obtain ⟨t, de, p, c, st, im, ra⟩ := r
    cases h
    exact ⟨_, rfl⟩
  · intro r h
    obtain ⟨t, de, p, c, st, im, ra⟩ := r
    cases h
    cases t with
    | none => exact ⟨_, rfl⟩
    | some t => exact ⟨_, rfl⟩
  · intro r h
    obtain ⟨t, de, p, c, st, im, ra⟩ := r
    cases h
    cases t with
    | none => exact ⟨_, rfl⟩
    | some t =>
      cases p with
      | none => exact ⟨_, rfl⟩
      | some p =>
        by_cases hp : p < 0
        · exact ⟨"price: ensure this value is greater than or equal to 0",
            by simp [validateProduct, hp]⟩
        · exact ⟨"field required: category", by simp [validateProduct, hp]⟩

/-- Witness for the amended C2 statement: concrete payloads missing `title`,
`price`, and `category` respectively are each rejected. -/
theorem create_rejects_missing_required_fields_witness :
    (∃ e, validateProduct ⟨none, none, some 1, some "C", none, none, none⟩ =
      .error e) ∧
    (∃ e, validateProduct ⟨some "T", none, none, some "C", none, none, none⟩ =
      .error e) ∧
    (∃ e, validateProduct ⟨some "T", none, some 1, none, none, none, none⟩ =
      .error e) :=
  ⟨create_rejects_missing_required_fields.1 _ rfl,
   create_rejects_missing_required_fields.2.1 _ rfl,
   create_rejects_missing_required_fields.2.2.1 _ rfl⟩

/-- C7: `serialize_doc` rewrites the store-native identifier field of a
stored record into a plain string under key `id`, removes the store-native
`_id` key, and replaces every other field holding a store-native identifier
value by its string form (all other values are left unchanged); every record
any operation returns to a caller passes through this function. -/
theorem serialize_doc_spec (d : Doc) (o : Nat)
    (h : getVal d "_id" = some (.oid o)) :
    getVal (serialize_doc d) "_id" = none ∧
    getVal (serialize_doc d) "id" = some (.str (oidToString o)) ∧
    (∀ k, k ≠ "_id" → k ≠ "id" →
      getVal (serialize_doc d) k = (getVal d k).map stringifyIfOid) ∧
    (∀ o₂, stringifyIfOid (.oid o₂) = .str (oidToString o₂)) ∧
    (∀ v, (∀ o₂, v ≠ .oid o₂) → stringifyIfOid v = v) :=
  ⟨getVal_serialize_under d o h, getVal_serialize_id d o h,
   fun k hk₁ hk₂ => getVal_serialize_other d k hk₁ hk₂,
   fun _ => rfl,
   fun v hv => by cases v <;> first | rfl | exact absurd rfl (hv _)⟩

/-- Witness for C7 at a concrete record with identifier 2, one plain field,
and one extra identifier-valued field. -/
theorem serialize_doc_spec_witness :
    getVal (serialize_doc [("_id", .oid 2), ("t", .str "a"), ("ref", .oid 7)])
      "_id" = none ∧
    getVal (serialize_doc [("_id", .oid 2), ("t", .str "a"), ("ref", .oid 7)])
      "id" = some (.str (oidToString 2)) ∧
    (∀ k, k ≠ "_id" → k ≠ "id" →
      getVal (serialize_doc [("_id", .oid 2), ("t", .str "a"), ("ref", .oid 7)]) k =
        (getVal [("_id", .oid 2), ("t", .str "a"), ("ref", .oid 7)] k).map
          stringifyIfOid) ∧
    (∀ o₂, stringifyIfOid (.oid o₂) = .str (oidToString o₂)) ∧
    (∀ v, (∀ o₂, v ≠ .oid o₂) → stringifyIfOid v = v) :=
  serialize_doc_spec [("_id", .oid 2), ("t", .str "a"), ("ref", .oid 7)] 2 rfl

/-- C8: the diagnostics operation is a total function of the store handle
and environment: for every store state its response carries exactly the six
fixed keys, reports the store-configuration environment values as boolean
presence text only, lists at most the first 10 collection names, and renders
a failing collection listing as status text in the `database` entry instead
of propagating the failure. -/
theorem test_database_spec (db : Option DbHandle) (env : Env) :
    (test_database db env).map Prod.fst =
      ["backend", "database", "database_url", "database_name",
       "connection_status", "collections"] ∧
    tget (test_database db env) "database_url" =
      some (.s (if env.databaseUrl.isSome then "✅ Set" else "❌ Not Set")) ∧
    tget (test_database db env) "database_name" =
      some (.s (if env.databaseName.isSome then "✅ Set" else "❌ Not Set")) ∧
    (∃ l, tget (test_database db env) "collections" = some (.list l) ∧
      l.length ≤ 10) ∧
    (∀ h cols, db = some h → h.listCollectionNames = .ok cols →
      tget (test_database db env) "collections" = some (.list (cols.take 10))) ∧
    (∀ h e, db = some h → h.listCollectionNames = .error e →
      tget (test_database db env) "database" =
        some (.s ("⚠️  Connected but Error: " ++ e.take 50))) := by
  cases db with
  | none =>
    refine ⟨rfl, rfl, rfl, ⟨[], rfl, by decide⟩, ?_, ?_⟩
    · intro h cols hdb
      simp at hdb
    · intro h e hdb
      simp at hdb
  | some h =>
    cases hcol : h.listCollectionNames with
    | ok cols =>
      refine ⟨?_, ?_, ?_, ⟨cols.take 10, ?_, ?_⟩, ?_, ?_⟩
      · simp [test_database, hcol, tset, treplace, tget]
      · simp [test_database, hcol, tset, treplace, tget]
      · simp [test_database, hcol, tset, treplace, tget]
      · simp [test_database, hcol, tset, treplace, tget]
      · exact List.length_take_le 10 cols
      · intro h₂ cols₂ hdb hcol₂
        injection hdb with hdb
        subst hdb
        rw [hcol] at hcol₂
        injection hcol₂ with hc
        subst hc
        simp [test_database, hcol, tset, treplace, tget]
      · intro h₂ e hdb hcol₂
        injection hdb with hdb
        subst hdb
        rw [hcol] at hcol₂
        exact absurd hcol₂ (by simp)
    | error e =>
      refine ⟨?_, ?_, ?_, ⟨[], ?_, by decide⟩, ?_, ?_⟩
      · simp [test_database, hcol, tset, treplace, tget]
      · simp [test_database, hcol, tset, treplace, tget]
      · simp [test_database, hcol, tset, treplace, tget]
      · simp [test_database, hcol, tset, treplace, tget]
      · intro h₂ cols hdb hcol₂
        injection hdb with hdb
        subst hdb
        rw [hcol] at hcol₂
        exact absurd hcol₂ (by simp)
      · intro h₂ e₂ hdb hcol₂
        injection hdb with hdb
        subst hdb
        rw [hcol] at hcol₂
        injection hcol₂ with he
        subst he
        simp [test_database, hcol, tset, treplace, tget]

/-- Witness for C8: a connected handle whose collection listing fails with
message "boom", with `DATABASE_URL` set and `DATABASE_NAME` unset. -/
theorem test_database_spec_witness :
    (test_database (some ⟨some "shopdb", .error "boom"⟩)
        ⟨some "mongodb://localhost", none⟩).map Prod.fst =
      ["backend", "database", "database_url", "database_name",
       "connection_status", "collections"] ∧
    tget (test_database (some ⟨some "shopdb", .error "boom"⟩)
        ⟨some "mongodb://localhost", none⟩) "database" =
      some (.s ("⚠️  Connected but Error: " ++ ("boom" : String).take 50)) :=
  ⟨(test_database_spec (some ⟨some "shopdb", .error "boom"⟩)
      ⟨some "mongodb://localhost", none⟩).1,
   (test_database_spec (some ⟨some "shopdb", .error "boom"⟩)
      ⟨some "mongodb://localhost", none⟩).2.2.2.2.2 _ "boom" rfl rfl⟩

/-- C5: for every store state whose category fields hold strings, the
categories operation returns exactly the distinct truthy (non-empty)
category values across all products — membership is equivalent to being a
non-empty category value of some document — with no duplicates, no
empty-string entry, sorted ascending in the value order, which on strings is
the lexicographic string order. -/
theorem categories_spec (s : Store)
    (hstr : ∀ d ∈ s.docs, ∀ v, getVal d "category" = some v →
      ∃ c : String, v = .str c) :
    List.Pairwise (fun a b => leVal a b = true) (categories (some s)) ∧
    (categories (some s)).Nodup ∧
    (∀ v, v ∈ categories (some s) ↔
      (truthy v = true ∧ ∃ d ∈ s.docs, getVal d "category" = some v)) ∧
    (∀ c : String, .str c ∈ categories (some s) ↔
      (c ≠ "" ∧ ∃ d ∈ s.docs, getVal d "category" = some (.str c))) ∧
    (∀ v ∈ categories (some s), ∃ c : String, v = .str c ∧ c ≠ "") ∧
    .str "" ∉ categories (some s) ∧
    (∀ x y : String, leVal (.str x) (.str y) = strLe x y) := by
  have hcat : categories (some s) =
      List.insertionSort (fun a b => leVal a b = true)
        ((distinctCategory s).filter truthy) := rfl
  have hperm := List.perm_insertionSort (fun a b => leVal a b = true)
    ((distinctCategory s).filter truthy)
  have hmem : ∀ v, v ∈ categories (some s) ↔
      (truthy v = true ∧ ∃ d ∈ s.docs, getVal d "category" = some v) := by
    intro v
    rw [hcat, hperm.mem_iff, List.mem_filter, distinctCategory,
      List.mem_dedup, List.mem_filterMap]
    constructor
    · rintro ⟨⟨d, hd, hv⟩, ht⟩
      exact ⟨ht, d, hd, hv⟩
    · rintro ⟨ht, d, hd, hv⟩
      exact ⟨⟨d, hd, hv⟩, ht⟩
  refine ⟨?_, ?_, hmem, ?_, ?_, ?_, fun x y => rfl⟩
  · rw [hcat]
    exact List.sorted_insertionSort _ _
  · rw [hcat, hperm.nodup_iff]
    exact (List.nodup_dedup _).filter _
  · intro c
    rw [hmem (.str c)]
    simp [truthy]
  · intro v hv
    rcases (hmem v).mp hv with ⟨ht, d, hd, hgv⟩
    rcases hstr d hd v hgv with ⟨c, rfl⟩
    refine ⟨c, rfl, ?_⟩
    simpa [truthy] using ht
  · intro hv
    rcases (hmem _).mp hv with ⟨ht, _⟩
    simp [truthy] at ht

/-- Witness for C5 at a two-document store whose categories are "B" and "A"
(out of order, to exercise the sort and the membership equivalence). -/
theorem categories_spec_witness :
    List.Pairwise (fun a b => leVal a b = true)
      (categories (some ⟨[[("category", .str "B")], [("category", .str "A")]], 0⟩)) ∧
    (categories (some ⟨[[("category", .str "B")], [("category", .str "A")]], 0⟩)).Nodup ∧
    (∀ v, v ∈ categories
        (some ⟨[[("category", .str "B")], [("category", .str "A")]], 0⟩) ↔
      (truthy v = true ∧
        ∃ d ∈ [[("category", Value.str "B")], [("category", Value.str "A")]],
          getVal d "category" = some v)) ∧
    (∀ c : String, .str c ∈ categories
        (some ⟨[[("category", .str "B")], [("category", .str "A")]], 0⟩) ↔
      (c ≠ "" ∧
        ∃ d ∈ [[("category", Value.str "B")], [("category", Value.str "A")]],
          getVal d "category" = some (.str c))) ∧
    (∀ v ∈ categories
        (some ⟨[[("category", .str "B")], [("category", .str "A")]], 0⟩),
      ∃ c : String, v = .str c ∧ c ≠ "") ∧
    .str "" ∉ categories
      (some ⟨[[("category", .str "B")], [("category", .str "A")]], 0⟩) ∧
    (∀ x y : String, leVal (.str x) (.str y) = strLe x y) :=
  categories_spec ⟨[[("category", .str "B")], [("category", .str "A")]], 0⟩
    (by
      intro d hd v hv
      simp only [List.mem_cons, List.not_mem_nil, or_false] at hd
      rcases hd with rfl | rfl
      · simp [getVal] at hv
        exact ⟨"B", hv.symm⟩
      · simp [getVal] at hv
        exact ⟨"A", hv.symm⟩)

/-- The numeric reading of a field, for stating sortedness: the rational
held by the field when it holds a number, `0` otherwise. -/
def numOf (field : String) (d : Doc) : ℚ :=
  match getVal d field with
  | some (.num q) => q
  | _ => 0

theorem numOf_serialize (field : String) (hf₁ : field ≠ "_id")
    (hf₂ : field ≠ "id") (d : Doc) :
    numOf field (serialize_doc d) = numOf field d := by
  unfold numOf
  rw [getVal_serialize_other d field hf₁ hf₂]
  cases hgv : getVal d field with
  | none => rfl
  | some v => cases v <;> rfl

theorem sorted_asc_by_field (field : String) (hf₁ : field ≠ "_id")
    (hf₂ : field ≠ "id") (l : List Doc) (n : Nat)
    (h : ∀ d ∈ l, ∃ p : ℚ, getVal d field = some (.num p)) :
    List.Sorted (· ≤ ·)
      ((((List.insertionSort (docLe field) l).take n).map serialize_doc).map
        (numOf field)) := by
  have hs : List.Sorted (docLe field) (List.insertionSort (docLe field) l) :=
    List.sorted_insertionSort _ l
  have ht : List.Pairwise (docLe field)
      ((List.insertionSort (docLe field) l).take n) :=
    List.Pairwise.sublist (List.take_sublist n _) hs
  have hmem : ∀ d ∈ (List.insertionSort (docLe field) l).take n,
      ∃ p : ℚ, getVal d field = some (.num p) := fun d hd =>
    h d ((List.perm_insertionSort (docLe field) l).mem_iff.mp
      ((List.take_sublist n _).subset hd))
  have hp : List.Pairwise (fun a b : Doc => numOf field a ≤ numOf field b)
      ((List.insertionSort (docLe field) l).take n) := by
    refine List.Pairwise.imp_of_mem ?_ ht
    intro a b ha hb hab
    rcases hmem a ha with ⟨pa, hpa⟩
    rcases hmem b hb with ⟨pb, hpb⟩
    have hka : sortKey field a = .num pa := by simp [sortKey, hpa]
    have hkb : sortKey field b = .num pb := by simp [sortKey, hpb]
    have hn : leVal (.num pa) (.num pb) = true := by
      rw [← hka, ← hkb]
      exact hab
    have hle : pa ≤ pb := by simpa [leVal, vrank] using hn
    simp [numOf, hpa, hpb, hle]
  have hfun : numOf field ∘ serialize_doc = numOf field :=
    funext (numOf_serialize field hf₁ hf₂)
  rw [List.map_map, hfun]
  exact List.Pairwise.map _ (fun a b hab => hab) hp

theorem sorted_desc_by_field (field : String) (hf₁ : field ≠ "_id")
    (hf₂ : field ≠ "id") (l : List Doc) (n : Nat)
    (h : ∀ d ∈ l, ∃ p : ℚ, getVal d field = some (.num p)) :
    List.Sorted (· ≥ ·)
      ((((List.insertionSort (docGe field) l).take n).map serialize_doc).map
        (numOf field)) := by
  have hs : List.Sorted (docGe field) (List.insertionSort (docGe field) l) :=
    List.sorted_insertionSort _ l
  have ht : List.Pairwise (docGe field)
      ((List.insertionSort (docGe field) l).take n) :=
    List.Pairwise.sublist (List.take_sublist n _) hs
  have hmem : ∀ d ∈ (List.insertionSort (docGe field) l).take n,
      ∃ p : ℚ, getVal d field = some (.num p) := fun d hd =>
    h d ((List.perm_insertionSort (docGe field) l).mem_iff.mp
      ((List.take_sublist n _).subset hd))
  have hp : List.Pairwise (fun a b : Doc => numOf field b ≤ numOf field a)
      ((List.insertionSort (docGe field) l).take n) := by
    refine List.Pairwise.imp_of_mem ?_ ht
    intro a b ha hb hab
    rcases hmem a ha with ⟨pa, hpa⟩
    rcases hmem b hb with ⟨pb, hpb⟩
    have hka : sortKey field a = .num pa := by simp [sortKey, hpa]
    have hkb : sortKey field b = .num pb := by simp [sortKey, hpb]
    have hn : leVal (.num pb) (.num pa) = true := by
      rw [← hka, ← hkb]
      exact hab
    have hle : pb ≤ pa := by simpa [leVal, vrank] using hn
    simp [numOf, hpa, hpb, hle]
  have hfun : numOf field ∘ serialize_doc = numOf field :=
    funext (numOf_serialize field hf₁ hf₂)
  rw [List.map_map, hfun]
  exact List.Pairwise.map _ (fun a b hab => hab) hp

/-- C4: for every store state and every `list_products` request,
`sort=price_asc` returns records non-decreasing in price, `sort=price_desc`
non-increasing in price, `sort=rating_desc` non-increasing in rating
(stated over stores whose records carry numeric prices and ratings, the
data-model invariant), and an unset or unrecognized sort value returns the
records in the store's natural order, identical to the unsorted request. -/
theorem list_products_sort_spec (s : Store) (q cat : Option String)
    (lim : Nat) :
    ((∀ d ∈ s.docs, ∃ p : ℚ, getVal d "price" = some (.num p)) →
      List.Sorted (· ≤ ·)
        ((list_products (some s) q cat lim (some "price_asc")).map
          (numOf "price")) ∧
      List.Sorted (· ≥ ·)
        ((list_products (some s) q cat lim (some "price_desc")).map
          (numOf "price"))) ∧
    ((∀ d ∈ s.docs, ∃ p : ℚ, getVal d "rating" = some (.num p)) →
      List.Sorted (· ≥ ·)
        ((list_products (some s) q cat lim (some "rating_desc")).map
          (numOf "rating"))) ∧
    (∀ sv : Option String, sv ≠ some "price_asc" → sv ≠ some "price_desc" →
      sv ≠ some "rating_desc" →
      list_products (some s) q cat lim sv =
        list_products (some s) q cat lim none) := by
  refine ⟨?_, ?_, ?_⟩
  · intro h
    have hsub : ∀ d ∈ s.docs.filter (matchesFilter q cat),
        ∃ p : ℚ, getVal d "price" = some (.num p) :=
      fun d hd => h d (List.mem_of_mem_filter hd)
    constructor
    · exact sorted_asc_by_field "price" (by decide) (by decide) _ lim hsub
    · exact sorted_desc_by_field "price" (by decide) (by decide) _ lim hsub
  · intro h
    have hsub : ∀ d ∈ s.docs.filter (matchesFilter q cat),
        ∃ p : ℚ, getVal d "rating" = some (.num p) :=
      fun d hd => h d (List.mem_of_mem_filter hd)
    exact sorted_desc_by_field "rating" (by decide) (by decide) _ lim hsub
  · intro sv h₁ h₂ h₃
    have hl : list_products (some s) q cat lim sv =
        ((s.docs.filter (matchesFilter q cat)).take lim).map serialize_doc := by
      simp only [list_products]
      rw [if_neg h₁, if_neg h₂, if_neg h₃]
    rw [hl]
    rfl

/-- Witness for C4 at a two-document store with prices 2, 1 and
ratings 1, 3. -/
theorem list_products_sort_spec_witness :
    (∀ d ∈ ([[("price", Value.num 2), ("rating", Value.num 1)],
            [("price", Value.num 1), ("rating", Value.num 3)]] : List Doc),
      ∃ p : ℚ, getVal d "price" = some (.num p)) ∧
    List.Sorted (· ≤ ·)
      ((list_products
          (some ⟨[[("price", .num 2), ("rating", .num 1)],
                  [("price", .num 1), ("rating", .num 3)]], 0⟩)
          none none 50 (some "price_asc")).map (numOf "price")) ∧
    (some "alpha" : Option String) ≠ some "price_asc" ∧
    list_products
        (some ⟨[[("price", .num 2), ("rating", .num 1)],
                [("price", .num 1), ("rating", .num 3)]], 0⟩)
        none none 50 (some "alpha") =
      list_products
        (some ⟨[[("price", .num 2), ("rating", .num 1)],
                [("price", .num 1), ("rating", .num 3)]], 0⟩)
        none none 50 none := by
  have hp : ∀ d ∈ ([[("price", Value.num 2), ("rating", Value.num 1)],
      [("price", Value.num 1), ("rating", Value.num 3)]] : List Doc),
      ∃ p : ℚ, getVal d "price" = some (.num p) := by
    intro d hd
    simp only [List.mem_cons, List.not_mem_nil, or_false] at hd
    rcases hd with rfl | rfl
    · exact ⟨2, rfl⟩
    · exact ⟨1, rfl⟩
  exact ⟨hp,
    ((list_products_sort_spec _ none none 50).1 hp).1,
    by decide,
    (list_products_sort_spec _ none none 50).2.2 (some "alpha")
      (by decide) (by decide) (by decide)⟩

theorem stringifyIfOid_optStr (o : Option String) :
    stringifyIfOid ((o.map Value.str).getD .null) = (o.map Value.str).getD .null := by
  cases o <;> rfl

theorem create_product_eq (s : Store) (pc : ProductCreate) :
    create_product (some s) pc =
      .ok (serialize_doc ((find_one
          (s.docs ++ [model_dump pc ++ [("_id", .oid s.nextId)]])
          s.nextId).getD []),
        ⟨s.docs ++ [model_dump pc ++ [("_id", .oid s.nextId)]],
          (s.nextId + 1) % 16 ^ 24⟩) :=
  rfl

theorem get_product_ok_of_parse_find (s₂ : Store) (pid : String) (o : Nat)
    (d : Doc) (hp : objectIdOfString pid = some o)
    (hf : find_one s₂.docs o = some d) :
    get_product (some s₂) pid = .ok (serialize_doc d) := by
  simp [get_product, hp, hf]

/-- C1: for every valid product payload (`price ≥ 0`, `0 ≤ rating ≤ 5`,
non-empty `title` and `category`) and every store state whose next
identifier is fresh, `create_product` succeeds and `get_product` on the
returned id yields exactly the record `create_product` returned, whose
`title`, `description`, `price`, `category`, `in_stock`, `image`, and
`rating` fields equal those of the payload, plus the newly assigned `id`
field holding the store-assigned identifier (and no store-native `_id`). -/
theorem create_then_get_roundtrip (s : Store) (pc : ProductCreate)
    (hprice : 0 ≤ pc.price) (hrating₀ : 0 ≤ pc.rating) (hrating₅ : pc.rating ≤ 5)
    (htitle : pc.title ≠ "") (hcategory : pc.category ≠ "")
    (hfresh : ∀ d ∈ s.docs, getVal d "_id" ≠ some (.oid s.nextId))
    (hlt : s.nextId < 16 ^ 24) :
    ∃ doc s₂,
      create_product (some s) pc = .ok (doc, s₂) ∧
      get_product (some s₂) (oidToString s.nextId) = .ok doc ∧
      getVal doc "id" = some (.str (oidToString s.nextId)) ∧
      getVal doc "_id" = none ∧
      getVal doc "title" = some (.str pc.title) ∧
      getVal doc "description" =
        some ((pc.description.map Value.str).getD .null) ∧
      getVal doc "price" = some (.num pc.price) ∧
      getVal doc "category" = some (.str pc.category) ∧
      getVal doc "in_stock" = some (.bool pc.in_stock) ∧
      getVal doc "image" = some ((pc.image.map Value.str).getD .null) ∧
      getVal doc "rating" = some (.num pc.rating) := by
  have hid : getVal (model_dump pc ++ [("_id", .oid s.nextId)]) "_id" =
      some (.oid s.nextId) := rfl
  have hfind : find_one (s.docs ++ [model_dump pc ++ [("_id", .oid s.nextId)]])
      s.nextId = some (model_dump pc ++ [("_id", .oid s.nextId)]) := by
    unfold find_one
    rw [List.find?_append]
    have hnone : List.find?
        (fun d => decide (getVal d "_id" = some (.oid s.nextId))) s.docs =
        none := by
      rw [List.find?_eq_none]
      intro x hx
      simp only [decide_eq_true_eq]
      exact hfresh x hx
    rw [hnone]
    simp [List.find?, hid]
  refine ⟨serialize_doc (model_dump pc ++ [("_id", .oid s.nextId)]),
    ⟨s.docs ++ [model_dump pc ++ [("_id", .oid s.nextId)]],
      (s.nextId + 1) % 16 ^ 24⟩, ?_, ?_, ?_, ?_, ?_, ?_, ?_, ?_, ?_, ?_, ?_⟩
  · rw [create_product_eq, hfind]
    rfl
  · exact get_product_ok_of_parse_find _ _ s.nextId _
      (objectIdOfString_oidToString s.nextId hlt) hfind
  · exact getVal_serialize_id _ s.nextId hid
  · exact getVal_serialize_under _ s.nextId hid
  · rw [getVal_serialize_other _ "title" (by decide) (by decide)]
    rfl
  · rw [getVal_serialize_other _ "description" (by decide) (by decide),
      show getVal (model_dump pc ++ [("_id", .oid s.nextId)]) "description" =
        some ((pc.description.map Value.str).getD .null) from rfl]
    rw [Option.map_some', stringifyIfOid_optStr]
  · rw [getVal_serialize_other _ "price" (by decide) (by decide)]
    rfl
  · rw [getVal_serialize_other _ "category" (by decide) (by decide)]
    rfl
  · rw [getVal_serialize_other _ "in_stock" (by decide) (by decide)]
    rfl
  · rw [getVal_serialize_other _ "image" (by decide) (by decide),
      show getVal (model_dump pc ++ [("_id", .oid s.nextId)]) "image" =
        some ((pc.image.map Value.str).getD .null) from rfl]
    rw [Option.map_some', stringifyIfOid_optStr]
  · rw [getVal_serialize_other _ "rating" (by decide) (by decide)]
    rfl

/-- Witness for C1: creating the valid payload (title "Lamp", price 10,
category "Office", rating 4) in an empty store with next identifier 0
round-trips through `get_product`. -/
theorem create_then_get_roundtrip_witness :
    (0 : ℚ) ≤ 10 ∧ (0 : ℚ) ≤ 4 ∧ (4 : ℚ) ≤ 5 ∧
    ("Lamp" : String) ≠ "" ∧ ("Office" : String) ≠ "" ∧ 0 < 16 ^ 24 ∧
    (∃ doc s₂,
      create_product (some ⟨[], 0⟩)
        ⟨"Lamp", none, 10, "Office", true, none, 4⟩ = .ok (doc, s₂) ∧
      get_product (some s₂) (oidToString 0) = .ok doc ∧
      getVal doc "id" = some (.str (oidToString 0)) ∧
      getVal doc "_id" = none ∧
      getVal doc "title" = some (.str "Lamp") ∧
      getVal doc "description" = some Value.null ∧
      getVal doc "price" = some (.num 10) ∧
      getVal doc "category" = some (.str "Office") ∧
      getVal doc "in_stock" = some (.bool true) ∧
      getVal doc "image" = some Value.null ∧
      getVal doc "rating" = some (.num 4)) :=
  ⟨by norm_num, by norm_num, by norm_num, by decide, by decide, by norm_num,
   create_then_get_roundtrip ⟨[], 0⟩ ⟨"Lamp", none, 10, "Office", true, none, 4⟩
     (by norm_num) (by norm_num) (by norm_num) (by decide) (by decide)
     (by simp) (by norm_num)⟩

/-- C9: running the startup seeding step on an empty reachable store (any
fresh-identifier source) inserts the six sample products, after which the
categories operation yields exactly the four category strings "Electronics",
"Fashion", "Home & Kitchen", "Office", in ascending order. -/
theorem seed_then_categories (n : Nat) :
    categories (seed_products (some ⟨[], n⟩)) =
      [.str "Electronics", .str "Fashion", .str "Home & Kitchen", .str "Office"] :=
  rfl
